import Mathlib

/-!
Verification of the log-telemetry pipeline of the `aiops_sre` repository:
the replay engine (`log_generator.py`, class `LogGenerator`), the tailer and
analysis trigger gate (`streamlit_app.py`).

Embedding conventions:
* Files are modelled at line granularity.  Every append made by
  `LogGenerator._write_log_entry` writes one pre-terminated line
  (`f.write(entry + "\n")`, a single write call), so an append-only text file
  is represented by the list of its lines (`List String`); a possibly absent
  file is `Option (List String)` with `none` for "does not exist".
  Opening a file in append mode creates it, hence a write to an absent target
  yields `some [entry]`.
* `interval_seconds` (a Python float, default 2.0) is represented as `Rat`;
  no claim computes with it, it only appears in frame conditions.
* The background thread handle (`self.thread`) is represented by an abstract
  `Option Nat` token; the timing of the loop (sleeping between iterations) is
  irrelevant to the claims, which are about the sequence of loop iterations.
* Wall-clock instants (`datetime.now()`) are represented as `Nat`.
-/

/-- Result of attempting to read a file: absent, present but raising on read,
or readable content given as its list of lines. -/
inductive FileRead where
  | absent : FileRead
  | unreadable : FileRead
  | content (lines : List String) : FileRead
deriving DecidableEq

/-- `LogGenerator._read_source_lines`: returns `[]` when the source file does
not exist, `[]` when reading raises (the `except` branch prints and returns
`[]`), otherwise `splitlines()` of the text, i.e. the list of lines. -/
def read_source_lines : FileRead → List String
  | .absent => []
  | .unreadable => []
  | .content lines => lines

/-- The lines a possibly-absent file holds: an absent file holds no lines. -/
def target_lines (t : Option (List String)) : List String := t.getD []

/-- The mutable state of a `LogGenerator` instance together with the target
file it writes: `current_line` is the replay cursor, `running` the flag
checked by the loop, `intervalSeconds` the configured pacing, `thread` the
abstract background-thread handle, `target` the target file. -/
structure GenState where
  current_line : Nat
  running : Bool
  intervalSeconds : Rat
  thread : Option Nat
  target : Option (List String)
deriving DecidableEq

namespace LogGenerator

/-- `LogGenerator.__init__`: cursor starts at `start_from_line`, not running,
no thread; the target file is whatever is on disk at construction time. -/
def mk (start_from_line : Nat) (target : Option (List String)) : GenState :=
  { current_line := start_from_line
    running := false
    intervalSeconds := 2
    thread := some 0
    target := target }

/-- `LogGenerator._write_log_entry`: appends `entry + "\n"` in one write call
(open in mode `"a"` creates an absent file). -/
def write_log_entry (t : Option (List String)) (entry : String) :
    Option (List String) :=
  some (target_lines t ++ [entry])

/-- One iteration of the `while` loop in `LogGenerator._generator_loop`:
if the running flag is set and the cursor is below the number of source
lines, append `lines[current_line]` to the target and increment the cursor
by one; otherwise the loop body does nothing (the loop exits). -/
def loop_step (lines : List String) (s : GenState) : GenState :=
  if s.running then
    if h : s.current_line < lines.length then
      { s with
        target := write_log_entry s.target (lines.get ⟨s.current_line, h⟩)
        current_line := s.current_line + 1 }
    else s
  else s

/-- `n` iterations of the replay loop. -/
def loop_steps (lines : List String) : Nat → GenState → GenState
  | 0, s => s
  | n + 1, s => loop_steps lines n (loop_step lines s)

/-- `LogGenerator.start`: no-op when already running; truncates the target to
empty when the cursor is 0 and the target exists; sets the running flag and
spawns the loop thread. -/
def start (s : GenState) : GenState :=
  if s.running then s
  else
    { s with
      target := if s.current_line = 0 ∧ s.target.isSome then some [] else s.target
      running := true
      thread := some 0 }

/-- `LogGenerator.stop`: no-op when not running, otherwise clears the running
flag (the join changes no modelled state). -/
def stop (s : GenState) : GenState :=
  if s.running then { s with running := false } else s

/-- `LogGenerator.reset`: sets the cursor to 0 and truncates the target file
to empty when it exists; touches nothing else. -/
def reset (s : GenState) : GenState :=
  { s with
    current_line := 0
    target := if s.target.isSome then some [] else s.target }

/-- The record returned by `LogGenerator.get_status`. -/
structure Status where
  running : Bool
  current_line : Nat
  total_lines : Nat
  progress : String
  interval_seconds : Rat
deriving DecidableEq

/-- `LogGenerator.get_status`: re-reads the source to compute `total_lines`
and reports a point-in-time view of the state. -/
def get_status (src : FileRead) (s : GenState) : Status :=
  let total := (read_source_lines src).length
  { running := s.running
    current_line := s.current_line
    total_lines := total
    progress :=
      if 0 < total then toString s.current_line ++ "/" ++ toString total
      else "0/0"
    interval_seconds := s.intervalSeconds }

/-- `LogGenerator.get_log_count`: 0 when the target file does not exist,
otherwise the number of lines in it. -/
def get_log_count (s : GenState) : Nat :=
  match s.target with
  | none => 0
  | some lines => lines.length

end LogGenerator

/-- The operations a client may perform on a `LogGenerator`, plus one
iteration of its background loop. -/
inductive GenOp where
  | start : GenOp
  | stop : GenOp
  | step : GenOp
  | reset : GenOp
deriving DecidableEq

/-- Execute one operation against the generator state; the loop iteration
reads the fixed source corpus `src`. -/
def exec_op (src : List String) : GenOp → GenState → GenState
  | .start, s => LogGenerator.start s
  | .stop, s => LogGenerator.stop s
  | .step, s => LogGenerator.loop_step src s
  | .reset, s => LogGenerator.reset s

/-- Execute a sequence of operations left to right. -/
def exec_ops (src : List String) (ops : List GenOp) (s : GenState) : GenState :=
  ops.foldl (fun s op => exec_op src op s) s

/-! ## JSON values and parsing (`parse_log_entry` / `json.loads`)

`streamlit_app.parse_log_entry` calls `json.loads` and returns `None` on any
parse error.  We embed JSON values as an inductive type and `json.loads` as a
recursive-descent parser over the character list, with a fuel argument
bounding the nesting depth (the input length is an ample bound).  Two
documented simplifications, on which no claim depends: numeric literals are
restricted to optionally-signed integers, and string literals contain no
escape sequences. -/

/-- A JSON value. -/
inductive Json where
  | null : Json
  | bool (b : Bool) : Json
  | num (n : Int) : Json
  | str (s : String) : Json
  | arr (elems : List Json) : Json
  | obj (members : List (String × Json)) : Json

/-- Drop leading JSON whitespace. -/
def skip_ws : List Char → List Char
  | [] => []
  | c :: cs =>
    if c = ' ' ∨ c = '\t' ∨ c = '\n' ∨ c = '\r' then skip_ws cs else c :: cs

/-- Consume the body of a string literal up to the closing quote; `none` when
the input ends before the quote. -/
def take_until_quote : List Char → Option (List Char × List Char)
  | [] => none
  | c :: cs =>
    if c = '\x22' then some ([], cs)
    else (take_until_quote cs).map (fun p => (c :: p.1, p.2))

/-- Split a leading run of decimal digits from the input. -/
def take_digits : List Char → List Char × List Char
  | [] => ([], [])
  | c :: cs =>
    if c.isDigit then
      let p := take_digits cs
      (c :: p.1, p.2)
    else ([], c :: cs)

/-- Value of a run of decimal digits. -/
def digits_to_nat (ds : List Char) : Nat :=
  ds.foldl (fun n c => 10 * n + (c.toNat - 48)) 0

mutual

/-- Parse one JSON value, returning it with the unconsumed rest. -/
def parse_value : Nat → List Char → Option (Json × List Char)
  | 0, _ => none
  | fuel + 1, input =>
    match skip_ws input with
    | [] => none
    | c :: cs =>
      if c = '\x7b' then
        match skip_ws cs with
        | '\x7d' :: rest => some (.obj [], rest)
        | cs1 => (parse_members fuel cs1).map (fun p => (.obj p.1, p.2))
      else if c = '[' then
        match skip_ws cs with
        | ']' :: rest => some (.arr [], rest)
        | cs1 => (parse_elements fuel cs1).map (fun p => (.arr p.1, p.2))
      else if c = '\x22' then
        (take_until_quote cs).map (fun p => (.str (String.mk p.1), p.2))
      else if c = 't' then
        match cs with
        | 'r' :: 'u' :: 'e' :: rest => some (.bool true, rest)
        | _ => none
      else if c = 'f' then
        match cs with
        | 'a' :: 'l' :: 's' :: 'e' :: rest => some (.bool false, rest)
        | _ => none
      else if c = 'n' then
        match cs with
        | 'u' :: 'l' :: 'l' :: rest => some (.null, rest)
        | _ => none
      else if c = '-' then
        match take_digits cs with
        | ([], _) => none
        | (ds, rest) => some (.num (-(digits_to_nat ds : Int)), rest)
      else if c.isDigit then
        match take_digits (c :: cs) with
        | (ds, rest) => some (.num (digits_to_nat ds : Int), rest)
      else none

/-- Parse the members of an object after its opening brace (at least one). -/
def parse_members : Nat → List Char → Option (List (String × Json) × List Char)
  | 0, _ => none
  | fuel + 1, input =>
    match skip_ws input with
    | [] => none
    | c :: cs =>
      if c = '\x22' then
        match take_until_quote cs with
        | none => none
        | some (key, rest1) =>
          match skip_ws rest1 with
          | ':' :: rest2 =>
            match parse_value fuel rest2 with
            | none => none
            | some (v, rest3) =>
              match skip_ws rest3 with
              | ',' :: rest4 =>
                (parse_members fuel rest4).map
                  (fun p => ((String.mk key, v) :: p.1, p.2))
              | '\x7d' :: rest4 => some ([(String.mk key, v)], rest4)
              | _ => none
          | _ => none
      else none

/-- Parse the elements of an array after its opening bracket (at least one). -/
def parse_elements : Nat → List Char → Option (List Json × List Char)
  | 0, _ => none
  | fuel + 1, input =>
    match parse_value fuel input with
    | none => none
    | some (v, rest1) =>
      match skip_ws rest1 with
      | ',' :: rest2 =>
        (parse_elements fuel rest2).map (fun p => (v :: p.1, p.2))
      | ']' :: rest2 => some ([v], rest2)
      | _ => none

end

/-- `json.loads`: parse a complete JSON document, rejecting trailing
non-whitespace (as `json.loads` does). -/
def Json.parse (s : String) : Option Json :=
  match parse_value (s.length + 1) s.data with
  | some (v, rest) => if skip_ws rest = [] then some v else none
  | none => none

/-- `streamlit_app.parse_log_entry`: `json.loads` wrapped so that a parse
error yields `None`.  (For the input `"null"`, `json.loads` returns Python
`None` itself; our `some .null` is distinguished from failure only here,
and both are rejected by the truthiness guard below, so behaviour agrees.) -/
def parse_log_entry (entry : String) : Option Json := Json.parse entry

/-- Python truthiness of a JSON value (`None`, `False`, `0`, `""`, `[]`, `{}`
are falsy). -/
def Json.truthy : Json → Bool
  | .null => false
  | .bool b => b
  | .num n => n != 0
  | .str s => s != ""
  | .arr elems => !elems.isEmpty
  | .obj members => !members.isEmpty

/-- Python truthiness of `parse_log_entry`'s result (`if parsed:`). -/
def parsed_truthy : Option Json → Bool
  | none => false
  | some v => v.truthy

/-! ## The tailer (log ingestion block of `streamlit_app.py`)

Session state: `last_log_count` and the accumulated `log_entries`.  Each
admitted entry records the parsed data and the raw line; the wall-clock
`timestamp` field stored alongside is never read by the ingestion logic and
is omitted from the embedding. -/

/-- One admitted entry of `st.session_state.log_entries`. -/
structure TailEntry where
  data : Json
  raw : String

/-- The tailer's session state: `st.session_state.last_log_count` and
`st.session_state.log_entries`. -/
structure TailState where
  last_log_count : Nat
  log_entries : List TailEntry

/-- The body of the `for line in new_lines` loop: parse the line; when the
parse succeeds and the value is truthy (`if parsed:`) and no already-admitted
entry has the same raw text, append it; otherwise leave the entries as they
are. -/
def admit_line (entries : List TailEntry) (line : String) : List TailEntry :=
  match parse_log_entry line with
  | none => entries
  | some parsed =>
    if parsed.truthy then
      if entries.any (fun e => e.raw == line) then entries
      else entries ++ [{ data := parsed, raw := line }]
    else entries

/-- One full tailer polling cycle over the target file's current content
(`none` = the file does not exist, skipped entirely).  When the raw line
count grew, process exactly the suffix `all_lines[last_log_count:]` and then
set `last_log_count` to the new count; otherwise change nothing. -/
def tail_cycle (content : Option (List String)) (st : TailState) : TailState :=
  match content with
  | none => st
  | some all_lines =>
    if st.last_log_count < all_lines.length then
      { last_log_count := all_lines.length
        log_entries :=
          (all_lines.drop st.last_log_count).foldl admit_line st.log_entries }
    else st

/-- The session's initial tailer state (`last_log_count = 0`, no entries). -/
def tail_init : TailState := { last_log_count := 0, log_entries := [] }

/-- Run a sequence of polling cycles, each over the file content observed in
that cycle. -/
def run_cycles (contents : List (Option (List String))) (st : TailState) :
    TailState :=
  contents.foldl (fun st c => tail_cycle c st) st

/-! ## The analysis trigger gate (`run_crew_analysis` and the auto-analyze
block of `streamlit_app.py`) -/

/-- The gate's timed session state: the in-flight flag
`st.session_state.crew_running` and `st.session_state.last_analysis_time`
(`none` until a first successful completion). -/
structure CrewGateState where
  crew_running : Bool
  last_analysis_time : Option Nat
deriving DecidableEq

/-- `run_crew_analysis`, by its outcome: the body sets `crew_running` to
`True` on entry; on success it records `last_analysis_time = now` and clears
the flag, returning the result; on an exception it clears the flag and
returns `None` — the `except` branch never touches `last_analysis_time`. -/
def run_crew_analysis (now : Nat) (outcome : Except String String)
    (s : CrewGateState) : CrewGateState × Option String :=
  match outcome with
  | .ok result =>
    ({ crew_running := false, last_analysis_time := some now }, some result)
  | .error _ =>
    ({ s with crew_running := false }, none)

/-- The cooldown test of the auto-analyze block:
`time_since_last >= analysis_interval`, where `time_since_last` is `+inf`
when `last_analysis_time` is `None`. -/
def cooldown_elapsed (now : Nat) (last : Option Nat) (interval : Nat) : Bool :=
  match last with
  | none => true
  | some t => decide (interval ≤ now - t)

/-- The auto-analyze dispatch guard (lines 372–376 of `streamlit_app.py`):
new raw lines arrived, the checkbox is on, no analysis is in flight, and the
cooldown has elapsed. -/
def auto_trigger_allowed (s : CrewGateState) (now interval : Nat)
    (new_logs auto_on : Bool) : Bool :=
  new_logs && auto_on && !s.crew_running &&
    cooldown_elapsed now s.last_analysis_time interval

/-! ## Interleaving model of trigger dispatch

The dashboard script is a single thread that re-runs every poll cycle; each
analysis invocation runs `run_crew_analysis` on its own thread.  The script's
auto-analyze block checks `crew_running` and then *spawns* a thread; the flag
is set by the spawned body itself when it begins, not at dispatch.  The
manual button path calls `run_crew_analysis` synchronously after the
button-disabled check of `crew_running`, so its flag-set is atomic with the
check from the script thread's point of view.  The model counts
`dispatched` bodies (spawned, not yet begun) and `inflight` bodies (begun,
not yet finished); the further auto-dispatch conditions (generator running,
new lines, checkbox, cooldown) restrict *when* a trigger may fire but are
satisfiable on every consecutive cycle, so they are abstracted into the
scheduler's choice of events. -/

/-- Gate state for the interleaving model. -/
structure GateState where
  crew_running : Bool
  dispatched : Nat
  inflight : Nat
deriving DecidableEq

/-- Events of the interleaving model: an automatic trigger (spawn a thread),
a manual trigger (synchronous invocation), the begin of a spawned body (its
`crew_running = True`), and the finish of a body (its `crew_running =
False`). -/
inductive GateEvent where
  | auto_trigger : GateEvent
  | manual_run : GateEvent
  | begin_body : GateEvent
  | finish_body : GateEvent
deriving DecidableEq

/-- One step of the interleaving model, with exactly the guards the code
evaluates: both trigger paths require `crew_running` to be clear at check
time; an automatic trigger only increments `dispatched` (the spawned body
has not yet set the flag); a begin turns a dispatched body into an in-flight
one and sets the flag; a finish clears the flag. -/
def gate_step : GateEvent → GateState → Option GateState
  | .auto_trigger, s =>
    if s.crew_running then none
    else some { s with dispatched := s.dispatched + 1 }
  | .manual_run, s =>
    if s.crew_running then none
    else some { s with inflight := s.inflight + 1, crew_running := true }
  | .begin_body, s =>
    match s.dispatched with
    | 0 => none
    | d + 1 =>
      some { crew_running := true, dispatched := d, inflight := s.inflight + 1 }
  | .finish_body, s =>
    match s.inflight with
    | 0 => none
    | i + 1 => some { s with inflight := i, crew_running := false }

/-- Run a sequence of events; `none` when some event's guard fails. -/
def gate_exec : List GateEvent → GateState → Option GateState
  | [], s => some s
  | e :: es, s =>
    match gate_step e s with
    | some s1 => gate_exec es s1
    | none => none

/-- The session's initial gate state. -/
def gate_init : GateState :=
  { crew_running := false, dispatched := 0, inflight := 0 }

/-- Number of in-flight invocations after a run (0 when the run was not
executable). -/
def inflight_after (r : Option GateState) : Nat :=
  match r with
  | none => 0
  | some s => s.inflight

/-- `gate_step` with both trigger guards strengthened by "no dispatched body
is still pending": the discipline under which the code's flag protocol is
sound. -/
def gate_safe_step : GateEvent → GateState → Option GateState
  | .auto_trigger, s =>
    if s.crew_running ∨ s.dispatched ≠ 0 then none
    else some { s with dispatched := s.dispatched + 1 }
  | .manual_run, s =>
    if s.crew_running ∨ s.dispatched ≠ 0 then none
    else some { s with inflight := s.inflight + 1, crew_running := true }
  | .begin_body, s => gate_step .begin_body s
  | .finish_body, s => gate_step .finish_body s

/-- Run a sequence of events under the strengthened guards. -/
def gate_safe_exec : List GateEvent → GateState → Option GateState
  | [], s => some s
  | e :: es, s =>
    match gate_safe_step e s with
    | some s1 => gate_safe_exec es s1
    | none => none

/-! ## Lemmas about the replay loop -/

/-- A loop iteration never changes the running flag. -/
theorem loop_step_running (lines : List String) (s : GenState) :
    (LogGenerator.loop_step lines s).running = s.running := by
  unfold LogGenerator.loop_step
  split
  · split <;> rfl
  · rfl

/-- Loop iterations never change the running flag. -/
theorem loop_steps_running (lines : List String) (n : Nat) (s : GenState) :
    (LogGenerator.loop_steps lines n s).running = s.running := by
  induction n generalizing s with
  | zero => rfl
  | succ n ih =>
    rw [LogGenerator.loop_steps, ih, loop_step_running]

/-- While the flag is set and records remain, `n` loop iterations append the
next `n` source records in order and advance the cursor by `n`. -/
theorem loop_steps_spec (lines : List String) (n : Nat) (s : GenState)
    (hrun : s.running = true) (hle : s.current_line + n ≤ lines.length) :
    target_lines (LogGenerator.loop_steps lines n s).target
        = target_lines s.target ++ (lines.drop s.current_line).take n
      ∧ (LogGenerator.loop_steps lines n s).current_line = s.current_line + n := by
  induction n generalizing s with
  | zero => simp [LogGenerator.loop_steps]
  | succ n ih =>
    have hlt : s.current_line < lines.length := by omega
    have hstep : LogGenerator.loop_step lines s =
        { s with
          target := LogGenerator.write_log_entry s.target (lines.get ⟨s.current_line, hlt⟩)
          current_line := s.current_line + 1 } := by
      unfold LogGenerator.loop_step
      rw [if_pos hrun, dif_pos hlt]
    have ih' := ih { s with
        target := LogGenerator.write_log_entry s.target (lines.get ⟨s.current_line, hlt⟩)
        current_line := s.current_line + 1 } hrun (by simpa using by omega)
    rw [LogGenerator.loop_steps, hstep]
    refine ⟨?_, ?_⟩
    · rw [ih'.1]
      show target_lines (LogGenerator.write_log_entry s.target _) ++ _ = _
      rw [LogGenerator.write_log_entry]
      show (target_lines s.target ++ [lines.get ⟨s.current_line, hlt⟩]) ++ _ = _
      rw [List.append_assoc, List.drop_eq_getElem_cons hlt, List.take_succ_cons]
      rfl
    · rw [ih'.2]
      show s.current_line + 1 + n = s.current_line + (n + 1)
      omega

/-- Claim C3: starting the replay engine at cursor 0 (which truncates an
existing target to empty) and letting its loop perform `n ≤ total` append
iterations leaves the target file containing exactly the first `n` source
records in order — each iteration appends `entry[cursor]` as one whole line
and then increments the cursor by exactly 1, so record N is appended before
record N+1. -/
theorem replay_appends_in_order (src : List String) (n : Nat) (s : GenState)
    (hcur : s.current_line = 0) (hrun : s.running = false)
    (hn : n ≤ src.length) :
    target_lines (LogGenerator.loop_steps src n (LogGenerator.start s)).target
        = src.take n
      ∧ (LogGenerator.loop_steps src n (LogGenerator.start s)).current_line
        = n := by
  have hstart : LogGenerator.start s =
      { s with
        target := if s.current_line = 0 ∧ s.target.isSome then some [] else s.target
        running := true
        thread := some 0 } := by
    unfold LogGenerator.start
    rw [if_neg (by rw [hrun]; exact Bool.false_ne_true)]
  have htl : target_lines (LogGenerator.start s).target = [] := by
    rw [hstart]
    by_cases hs : s.target.isSome
    · simp [hcur, hs, target_lines]
    · have : s.target = none := Option.not_isSome_iff_eq_none.mp hs
      simp [hcur, hs, this, target_lines]
  have hcur' : (LogGenerator.start s).current_line = 0 := by rw [hstart]; exact hcur
  have hrun' : (LogGenerator.start s).running = true := by rw [hstart]
  have h := loop_steps_spec src n (LogGenerator.start s) hrun' (by omega)
  refine ⟨?_, ?_⟩
  · rw [h.1, htl, hcur', List.drop_zero, List.nil_append]
  · rw [h.2, hcur', Nat.zero_add]

/-- Witness for C3 at a concrete input: a 3-record corpus, 2 iterations,
starting from cursor 0 over a stale non-empty target. -/
theorem replay_appends_in_order_witness :
    target_lines (LogGenerator.loop_steps ["a", "b", "c"] 2
        (LogGenerator.start ⟨0, false, 2, none, some ["x"]⟩)).target
      = ["a", "b"] :=
  (replay_appends_in_order ["a", "b", "c"] 2 ⟨0, false, 2, none, some ["x"]⟩
    rfl rfl (by decide)).1

/-- Any single non-reset operation on a state whose cursor sits at the end of
a non-empty corpus leaves the target file and the cursor unchanged:
`start` does not truncate (the cursor is non-zero), a loop iteration finds
no record below `total` to append, `stop` touches neither. -/
theorem exec_op_noop_of_completed (src : List String) (op : GenOp)
    (s : GenState) (hne : op ≠ GenOp.reset) (hc : s.current_line = src.length)
    (hpos : 0 < src.length) :
    (exec_op src op s).target = s.target
      ∧ (exec_op src op s).current_line = s.current_line := by
  cases op with
  | start =>
    have hn0 : ¬(s.current_line = 0 ∧ s.target.isSome) := by
      rintro ⟨h0, -⟩
      omega
    by_cases hr : s.running <;>
      simp [exec_op, LogGenerator.start, hr, hn0]
  | stop =>
    by_cases hr : s.running <;>
      simp [exec_op, LogGenerator.stop, hr]
  | step =>
    by_cases hr : s.running <;>
      simp [exec_op, LogGenerator.loop_step, hr, hc]
  | reset => exact absurd rfl hne

/-- Claim C5: when the cursor has reached the total of a non-empty corpus
(natural completion — the loop's completion branch requires at least one
record), any sequence of `start`, `stop` and loop iterations that contains no
`reset` appends nothing to the target file and does not truncate it, and the
cursor stays at the total; `reset` is what returns the cursor to 0. -/
theorem completed_start_noop (src : List String) (s : GenState)
    (ops : List GenOp) (hc : s.current_line = src.length)
    (hpos : 0 < src.length) (hnr : GenOp.reset ∉ ops) :
    (exec_ops src ops s).target = s.target
      ∧ (exec_ops src ops s).current_line = s.current_line
      ∧ (LogGenerator.reset s).current_line = 0 := by
  have main : ∀ (ops : List GenOp) (s : GenState),
      s.current_line = src.length → GenOp.reset ∉ ops →
      (exec_ops src ops s).target = s.target
        ∧ (exec_ops src ops s).current_line = s.current_line := by
    intro ops
    induction ops with
    | nil => exact fun s _ _ => ⟨rfl, rfl⟩
    | cons op ops ih =>
      intro s hc hnr
      have hne : op ≠ GenOp.reset := fun h => hnr (h ▸ List.mem_cons_self op ops)
      have hnr' : GenOp.reset ∉ ops := fun h => hnr (List.mem_cons_of_mem op h)
      have hop := exec_op_noop_of_completed src op s hne hc hpos
      have hc' : (exec_op src op s).current_line = src.length := by
        rw [hop.2, hc]
      have hrest := ih (exec_op src op s) hc' hnr'
      refine ⟨?_, ?_⟩
      · calc (exec_ops src (op :: ops) s).target
            = (exec_ops src ops (exec_op src op s)).target := rfl
          _ = (exec_op src op s).target := hrest.1
          _ = s.target := hop.1
      · calc (exec_ops src (op :: ops) s).current_line
            = (exec_ops src ops (exec_op src op s)).current_line := rfl
          _ = (exec_op src op s).current_line := hrest.2
          _ = s.current_line := hop.2
  exact ⟨(main ops s hc hnr).1, (main ops s hc hnr).2, rfl⟩

/-- Witness for C5 at a concrete input: a completed single-record replay,
followed by start/step/stop/start/step without reset, leaves the target
untouched. -/
theorem completed_start_noop_witness :
    (exec_ops ["a"] [GenOp.start, GenOp.step, GenOp.stop, GenOp.start, GenOp.step]
        ⟨1, false, 2, some 0, some ["a"]⟩).target = some ["a"]
      ∧ (LogGenerator.reset (⟨1, false, 2, some 0, some ["a"]⟩ : GenState)).current_line = 0 :=
  ⟨(completed_start_noop ["a"] ⟨1, false, 2, some 0, some ["a"]⟩
      [GenOp.start, GenOp.step, GenOp.stop, GenOp.start, GenOp.step]
      rfl (by decide) (by decide)).1,
   (completed_start_noop ["a"] ⟨1, false, 2, some 0, some ["a"]⟩
      [GenOp.start, GenOp.step, GenOp.stop, GenOp.start, GenOp.step]
      rfl (by decide) (by decide)).2.2⟩

/-- Counterexample to claim C6 as stated: construction accepts any
`start_from_line`, so constructing with `start_from_line = 5` over a 3-line
Entry Store yields a reachable state (reached by the empty operation
sequence) whose cursor already exceeds the total — the invariant
`cursor ≤ total` does not survive arbitrary construction. -/
theorem cursor_invariant_cex :
    ¬ ((LogGenerator.mk 5 none).current_line
        ≤ (read_source_lines (.content ["a", "b", "c"])).length) := by
  decide

/-- Any single operation preserves `cursor ≤ total`. -/
theorem exec_op_cursor_le (src : List String) (op : GenOp) (s : GenState)
    (h : s.current_line ≤ src.length) :
    (exec_op src op s).current_line ≤ src.length := by
  cases op with
  | start =>
    by_cases hr : s.running <;> simp [exec_op, LogGenerator.start, hr, h]
  | stop =>
    by_cases hr : s.running <;> simp [exec_op, LogGenerator.stop, hr, h]
  | step =>
    by_cases hr : s.running
    · by_cases hlt : s.current_line < src.length
      · simp [exec_op, LogGenerator.loop_step, hr, hlt]
        omega
      · simp [exec_op, LogGenerator.loop_step, hr, hlt, h]
    · simp [exec_op, LogGenerator.loop_step, hr, h]
  | reset =>
    simp [exec_op, LogGenerator.reset]

/-- Claim C6 amended: provided the construction's `start_from_line` is at
most the Entry Store's line count, every state reachable by construction,
`start`, loop iterations, `stop` and `reset` satisfies `cursor ≤ total`
(with `cursor : Nat` always non-negative); the loop iteration never
decreases the cursor (monotonically non-decreasing while running; `reset`
is the operation that returns it to 0), and the loop halts — a further
iteration is the identity — once `cursor = total`. -/
theorem cursor_invariant_amended (src : List String) (k : Nat)
    (t : Option (List String)) (ops : List GenOp) (hk : k ≤ src.length) :
    (exec_ops src ops (LogGenerator.mk k t)).current_line ≤ src.length
      ∧ (∀ s : GenState,
          s.current_line ≤ (LogGenerator.loop_step src s).current_line)
      ∧ (∀ s : GenState, s.current_line = src.length →
          LogGenerator.loop_step src s = s) := by
  refine ⟨?_, ?_, ?_⟩
  · have main : ∀ (ops : List GenOp) (s : GenState),
        s.current_line ≤ src.length →
        (exec_ops src ops s).current_line ≤ src.length := by
      intro ops
      induction ops with
      | nil => exact fun s h => h
      | cons op ops ih =>
        intro s h
        exact ih (exec_op src op s) (exec_op_cursor_le src op s h)
    exact main ops (LogGenerator.mk k t) hk
  · intro s
    unfold LogGenerator.loop_step
    by_cases hr : s.running
    · by_cases hlt : s.current_line < src.length
      · simp [hr, hlt]
      · simp [hr, hlt]
    · simp [hr]
  · intro s hc
    unfold LogGenerator.loop_step
    by_cases hr : s.running
    · simp [hr, hc]
    · simp [hr]

/-- Witness for the amended C6 at a concrete input: `start_from_line = 2`
over a 3-line store, running start, a loop iteration, reset, and another
iteration keeps the cursor within bounds. -/
theorem cursor_invariant_amended_witness :
    (exec_ops ["a", "b", "c"] [GenOp.start, GenOp.step, GenOp.reset, GenOp.step]
        (LogGenerator.mk 2 (some []))).current_line
      ≤ (["a", "b", "c"] : List String).length :=
  (cursor_invariant_amended ["a", "b", "c"] 2 (some [])
    [GenOp.start, GenOp.step, GenOp.reset, GenOp.step] (by decide)).1

/-- Claim C9: loop iterations never clear the running flag — on natural
completion the loop merely stops appending — so `get_status` keeps reporting
`running = True` until `stop()` is explicitly called (which clears it). -/
theorem running_flag_persists (src : List String) (n : Nat) (s : GenState)
    (hrun : s.running = true) :
    (LogGenerator.loop_steps src n s).running = true
      ∧ (LogGenerator.get_status (.content src)
          (LogGenerator.loop_steps src n s)).running = true
      ∧ (LogGenerator.stop (LogGenerator.loop_steps src n s)).running
        = false := by
  have h1 : (LogGenerator.loop_steps src n s).running = true := by
    rw [loop_steps_running, hrun]
  refine ⟨h1, ?_, ?_⟩
  · show (LogGenerator.loop_steps src n s).running = true
    exact h1
  · unfold LogGenerator.stop
    rw [if_pos h1]

/-- Witness for C9 at a concrete input: a running generator that has
completed its single-record corpus still reports `running = True` after
further iterations. -/
theorem running_flag_persists_witness :
    (LogGenerator.loop_steps ["a"] 3 ⟨1, true, 2, some 0, some ["a"]⟩).running
      = true :=
  (running_flag_persists ["a"] 3 ⟨1, true, 2, some 0, some ["a"]⟩ rfl).1

/-- Claim C10: `reset()` sets only the cursor (to 0) and the target file
(truncated to empty when it exists); the running flag, the configured
interval and the thread handle are untouched, so a reset during replay does
not stop the loop — its next iteration appends entry 0 again and moves the
cursor to 1. -/
theorem reset_frame_running (src : List String) (s : GenState)
    (hrun : s.running = true) (hpos : 0 < src.length) :
    (LogGenerator.reset s).current_line = 0
      ∧ (LogGenerator.reset s).target
        = (if s.target.isSome then some [] else s.target)
      ∧ (LogGenerator.reset s).running = s.running
      ∧ (LogGenerator.reset s).intervalSeconds = s.intervalSeconds
      ∧ (LogGenerator.reset s).thread = s.thread
      ∧ target_lines
          (LogGenerator.loop_step src (LogGenerator.reset s)).target
        = src.take 1
      ∧ (LogGenerator.loop_step src (LogGenerator.reset s)).current_line
        = 1 := by
  have htl : target_lines (LogGenerator.reset s).target = [] := by
    unfold LogGenerator.reset
    by_cases hs : s.target.isSome
    · simp [hs, target_lines]
    · have : s.target = none := Option.not_isSome_iff_eq_none.mp hs
      simp [hs, this, target_lines]
  have hstep : LogGenerator.loop_step src (LogGenerator.reset s) =
      { (LogGenerator.reset s) with
        target := LogGenerator.write_log_entry (LogGenerator.reset s).target
          (src.get ⟨0, hpos⟩)
        current_line := 1 } := by
    unfold LogGenerator.loop_step
    rw [if_pos (show (LogGenerator.reset s).running = true from hrun),
      dif_pos (show (LogGenerator.reset s).current_line < src.length from hpos)]
    rfl
  refine ⟨rfl, rfl, rfl, rfl, rfl, ?_, ?_⟩
  · rw [hstep]
    show target_lines (LogGenerator.write_log_entry
      (LogGenerator.reset s).target (src.get ⟨0, hpos⟩)) = src.take 1
    rw [LogGenerator.write_log_entry]
    show target_lines (LogGenerator.reset s).target ++ [src.get ⟨0, hpos⟩]
      = src.take 1
    rw [htl, List.nil_append]
    rw [← List.take_one_drop_eq_of_lt_length hpos, List.drop_zero]
  · rw [hstep]

/-- Witness for C10 at a concrete input: resetting a running 2-record replay
that had already emitted both records re-emits record 0 on the next
iteration. -/
theorem reset_frame_running_witness :
    (LogGenerator.reset (⟨2, true, 2, some 0, some ["a", "b"]⟩ : GenState)).running
      = true
      ∧ target_lines (LogGenerator.loop_step ["a", "b"]
          (LogGenerator.reset ⟨2, true, 2, some 0, some ["a", "b"]⟩)).target
        = ["a"] :=
  ⟨(reset_frame_running ["a", "b"] ⟨2, true, 2, some 0, some ["a", "b"]⟩
      rfl (by decide)).2.2.1,
   (reset_frame_running ["a", "b"] ⟨2, true, 2, some 0, some ["a", "b"]⟩
      rfl (by decide)).2.2.2.2.2.1⟩

/-- Claim C8: missing inputs are zero data, never fatal — a missing or
unreadable source reads as no lines, `start()` still sets the running flag,
the loop over an empty corpus is the identity (exits at once, appending
nothing), an absent target file gives the tailer zero new lines and leaves
its state untouched, and `get_log_count` reports 0 for an absent target. -/
theorem missing_input_zero_data :
    read_source_lines .absent = []
      ∧ read_source_lines .unreadable = []
      ∧ (∀ s : GenState, (LogGenerator.start s).running = true)
      ∧ (∀ (n : Nat) (s : GenState),
          LogGenerator.loop_steps (read_source_lines .absent) n s = s)
      ∧ (∀ st : TailState, tail_cycle none st = st)
      ∧ (∀ s : GenState, s.target = none → LogGenerator.get_log_count s = 0) := by
  refine ⟨rfl, rfl, ?_, ?_, ?_, ?_⟩
  · intro s
    unfold LogGenerator.start
    by_cases hr : s.running
    · rw [if_pos hr]
      exact hr
    · rw [if_neg hr]
  · intro n
    induction n with
    | zero => exact fun s => rfl
    | succ n ih =>
      intro s
      have hstep : LogGenerator.loop_step (read_source_lines .absent) s = s := by
        unfold LogGenerator.loop_step
        by_cases hr : s.running
        · rw [if_pos hr, dif_neg (by simp [read_source_lines])]
        · rw [if_neg hr]
      rw [LogGenerator.loop_steps, hstep]
      exact ih s
  · exact fun st => rfl
  · intro s hnone
    unfold LogGenerator.get_log_count
    rw [hnone]

/-- Witness for C8 at a concrete input: `get_log_count` of a generator whose
target file is absent is 0. -/
theorem missing_input_zero_data_witness :
    LogGenerator.get_log_count ⟨0, false, 2, none, none⟩ = 0 :=
  missing_input_zero_data.2.2.2.2.2 ⟨0, false, 2, none, none⟩ rfl

/-! ## Lemmas about the tailer -/

/-- Admitting one line preserves distinctness of the admitted raw texts:
a line is only appended after the membership check against every entry
admitted so far. -/
theorem admit_line_nodup (line : String) (entries : List TailEntry)
    (h : (entries.map TailEntry.raw).Nodup) :
    ((admit_line entries line).map TailEntry.raw).Nodup := by
  cases hp : parse_log_entry line with
  | none => simpa [admit_line, hp] using h
  | some parsed =>
    by_cases ht : parsed.truthy
    · by_cases hany : entries.any (fun e => e.raw == line) = true
      · simpa [admit_line, hp, ht, hany] using h
      · have hnotin : line ∉ entries.map TailEntry.raw := by
          intro hmem
          obtain ⟨e, he, hraw⟩ := List.mem_map.mp hmem
          exact hany (List.any_eq_true.mpr ⟨e, he, by simp [hraw]⟩)
        have hred : admit_line entries line
            = entries ++ [{ data := parsed, raw := line }] := by
          simp [admit_line, hp, ht, hany]
        rw [hred, List.map_append]
        exact h.append (List.nodup_singleton line)
          (List.disjoint_singleton.mpr hnotin)
    · simpa [admit_line, hp, ht] using h

/-- Folding a batch of new lines through `admit_line` preserves distinctness
of the admitted raw texts. -/
theorem fold_admit_nodup (lines : List String) (entries : List TailEntry)
    (h : (entries.map TailEntry.raw).Nodup) :
    ((lines.foldl admit_line entries).map TailEntry.raw).Nodup := by
  induction lines generalizing entries with
  | nil => exact h
  | cons line lines ih =>
    exact ih (admit_line entries line) (admit_line_nodup line entries h)

/-- One polling cycle preserves distinctness of the admitted raw texts. -/
theorem tail_cycle_nodup (c : Option (List String)) (st : TailState)
    (h : (st.log_entries.map TailEntry.raw).Nodup) :
    ((tail_cycle c st).log_entries.map TailEntry.raw).Nodup := by
  cases c with
  | none => exact h
  | some all_lines =>
    by_cases hlt : st.last_log_count < all_lines.length
    · have hred : tail_cycle (some all_lines) st =
          { last_log_count := all_lines.length
            log_entries :=
              (all_lines.drop st.last_log_count).foldl admit_line
                st.log_entries } := by
        simp [tail_cycle, hlt]
      rw [hred]
      exact fold_admit_nodup _ _ h
    · have hred : tail_cycle (some all_lines) st = st := by
        simp [tail_cycle, hlt]
      rw [hred]
      exact h

/-- Claim C4: over any sequence of polling cycles on arbitrary target-file
contents, a raw line already admitted is never admitted a second time (the
admitted raw texts stay pairwise distinct), and re-running a cycle on
unchanged file content leaves the tailer state — in particular the
admitted-entry sequence — unchanged. -/
theorem tailer_no_readmission_idempotent :
    (∀ contents : List (Option (List String)),
        ((run_cycles contents tail_init).log_entries.map TailEntry.raw).Nodup)
      ∧ (∀ (c : Option (List String)) (st : TailState),
          tail_cycle c (tail_cycle c st) = tail_cycle c st) := by
  constructor
  · intro contents
    have main : ∀ (cs : List (Option (List String))) (st : TailState),
        (st.log_entries.map TailEntry.raw).Nodup →
        ((run_cycles cs st).log_entries.map TailEntry.raw).Nodup := by
      intro cs
      induction cs with
      | nil => exact fun st h => h
      | cons c cs ih =>
        exact fun st h => ih (tail_cycle c st) (tail_cycle_nodup c st h)
    exact main contents tail_init List.nodup_nil
  · intro c st
    cases c with
    | none => rfl
    | some all_lines =>
      by_cases hlt : st.last_log_count < all_lines.length
      · have h1 : tail_cycle (some all_lines) st =
            { last_log_count := all_lines.length
              log_entries :=
                (all_lines.drop st.last_log_count).foldl admit_line
                  st.log_entries } := by
          simp [tail_cycle, hlt]
        rw [h1]
        simp [tail_cycle]
      · have h1 : tail_cycle (some all_lines) st = st := by
          simp [tail_cycle, hlt]
        rw [h1]
        exact h1

/-- The first valid demo line: a well-formed JSON telemetry record. -/
def demo_line1 : String := "\x7b\x22host\x22: \x22web-1\x22, \x22cpu\x22: 93\x7d"

/-- The second valid demo line. -/
def demo_line2 : String := "\x7b\x22host\x22: \x22web-2\x22, \x22cpu\x22: 41\x7d"

/-- The third valid demo line. -/
def demo_line3 : String := "\x7b\x22host\x22: \x22db-1\x22, \x22level\x22: \x22WARN\x22\x7d"

/-- The malformed demo line: not valid JSON. -/
def demo_line_bad : String := "not json"

/-- The demo target file: three distinct valid JSON records with the
malformed line interleaved between the first and the second. -/
def demo_file : List String :=
  [demo_line1, demo_line_bad, demo_line2, demo_line3]

/-- Claim C7 (the spec's mixed-file scenario): on a target file of 3 valid
JSON lines and 1 malformed line interleaved, one full cycle from last-count
0 admits exactly the 3 parsed entries in file order, while the raw-line
cursor advances to 4 — the malformed line is excluded from the structured
window but still consumes its raw position. -/
theorem tailer_mixed_file_scenario :
    parse_log_entry demo_line_bad = none
      ∧ (parse_log_entry demo_line1).isSome = true
      ∧ (parse_log_entry demo_line2).isSome = true
      ∧ (parse_log_entry demo_line3).isSome = true
      ∧ (tail_cycle (some demo_file) tail_init).log_entries =
          [⟨.obj [("host", .str "web-1"), ("cpu", .num 93)], demo_line1⟩,
           ⟨.obj [("host", .str "web-2"), ("cpu", .num 41)], demo_line2⟩,
           ⟨.obj [("host", .str "db-1"), ("level", .str "WARN")], demo_line3⟩]
      ∧ (tail_cycle (some demo_file) tail_init).last_log_count = 4 :=
  ⟨rfl, rfl, rfl, rfl, rfl, rfl⟩

/-! ## The trigger gate claims -/

/-- Counterexample to claim C1 as stated: the `except` branch of
`run_crew_analysis` clears the in-flight flag but never assigns
`last_analysis_time`.  With the last successful completion at time 0 and a
cooldown of 10, an invocation failing at time 12 leaves the completion time
at 0 (not 12), and the automatic-trigger guard holds again immediately at
time 12 — well before 12 + 10 — so a failed attempt does not consume the
cooldown. -/
theorem crew_failure_cooldown_cex :
    ((run_crew_analysis 12 (Except.error "boom")
        ⟨false, some 0⟩).1.last_analysis_time ≠ some 12)
      ∧ ((run_crew_analysis 12 (Except.error "boom")
          ⟨false, some 0⟩).1.crew_running = false)
      ∧ (auto_trigger_allowed
          (run_crew_analysis 12 (Except.error "boom") ⟨false, some 0⟩).1
          12 10 true true = true) := by
  decide

/-- Claim C1 amended: if the analysis invocation raises, the gate still
clears the in-flight flag, but it does **not** record a completion time —
`last_analysis_time` keeps its previous value and the call returns `None` —
so the cooldown after a failure is still measured from the last successful
completion (and a second automatic trigger may be dispatched immediately
when that earlier cooldown has already elapsed, or when no analysis ever
completed). -/
theorem crew_failure_clears_flag_only (now : Nat) (e : String)
    (s : CrewGateState) :
    (run_crew_analysis now (Except.error e) s).1.crew_running = false
      ∧ (run_crew_analysis now (Except.error e) s).1.last_analysis_time
        = s.last_analysis_time
      ∧ (run_crew_analysis now (Except.error e) s).2 = none :=
  ⟨rfl, rfl, rfl⟩

/-- Counterexample to claim C2 as stated: the in-flight flag is set by the
invocation body after dispatch, not before, so an automatic trigger may
dispatch a body, a manual trigger may pass its flag check while that body is
still pending, and once the pending body begins, two invocations are in
flight simultaneously. -/
theorem gate_two_inflight_cex :
    ¬ (inflight_after
        (gate_exec [.auto_trigger, .manual_run, .begin_body] gate_init)
      ≤ 1) := by
  decide

/-- The safety invariant of the disciplined gate: at most one invocation is
pending-or-in-flight, an in-flight invocation implies the flag is set, and a
pending dispatch implies the flag is still clear. -/
def GateInv (s : GateState) : Prop :=
  s.dispatched + s.inflight ≤ 1
    ∧ (s.inflight = 1 → s.crew_running = true)
    ∧ (s.dispatched = 1 → s.crew_running = false)

/-- A step under the strengthened guards preserves the safety invariant. -/
theorem gate_safe_step_inv (e : GateEvent) (s s1 : GateState)
    (hinv : GateInv s) (hstep : gate_safe_step e s = some s1) :
    GateInv s1 := by
  obtain ⟨hle, hin, hdis⟩ := hinv
  cases e with
  | auto_trigger =>
    rw [gate_safe_step] at hstep
    by_cases hg : s.crew_running = true ∨ s.dispatched ≠ 0
    · rw [if_pos hg] at hstep
      exact absurd hstep (by simp)
    · rw [if_neg hg] at hstep
      push_neg at hg
      obtain ⟨hcr, hd0⟩ := hg
      have hi0 : s.inflight = 0 := by
        rcases Nat.lt_or_ge s.inflight 1 with h1 | h1
        · omega
        · have : s.inflight = 1 := by omega
          exact absurd (hin this) (by simp [hcr])
      cases hstep
      refine ⟨by simp [hd0, hi0], by simp [hi0], ?_⟩
      intro _
      simp only [Bool.not_eq_true] at hcr
      exact hcr
  | manual_run =>
    rw [gate_safe_step] at hstep
    by_cases hg : s.crew_running = true ∨ s.dispatched ≠ 0
    · rw [if_pos hg] at hstep
      exact absurd hstep (by simp)
    · rw [if_neg hg] at hstep
      push_neg at hg
      obtain ⟨hcr, hd0⟩ := hg
      have hi0 : s.inflight = 0 := by
        rcases Nat.lt_or_ge s.inflight 1 with h1 | h1
        · omega
        · have : s.inflight = 1 := by omega
          exact absurd (hin this) (by simp [hcr])
      cases hstep
      exact ⟨by simp [hd0, hi0], fun _ => rfl, by simp [hd0, hi0]⟩
  | begin_body =>
    rw [gate_safe_step, gate_step] at hstep
    cases hd : s.dispatched with
    | zero =>
      rw [hd] at hstep
      exact absurd hstep (by simp)
    | succ d =>
      rw [hd] at hstep
      cases hstep
      refine ⟨?_, fun _ => rfl, ?_⟩
      · show d + (s.inflight + 1) ≤ 1
        omega
      · intro h1
        have hd1 : d = 1 := h1
        omega
  | finish_body =>
    rw [gate_safe_step, gate_step] at hstep
    cases hi : s.inflight with
    | zero =>
      rw [hi] at hstep
      exact absurd hstep (by simp)
    | succ i =>
      rw [hi] at hstep
      cases hstep
      refine ⟨?_, ?_, fun _ => rfl⟩
      · show s.dispatched + i ≤ 1
        omega
      · intro h1
        have hi1 : i = 1 := h1
        omega

/-- A step under the strengthened guards is also a step of the code's actual
guards. -/
theorem gate_safe_step_sound (e : GateEvent) (s s1 : GateState)
    (hstep : gate_safe_step e s = some s1) : gate_step e s = some s1 := by
  cases e with
  | auto_trigger =>
    rw [gate_safe_step] at hstep
    by_cases hg : s.crew_running = true ∨ s.dispatched ≠ 0
    · rw [if_pos hg] at hstep
      exact absurd hstep (by simp)
    · rw [if_neg hg] at hstep
      push_neg at hg
      rw [gate_step, if_neg (by simp [hg.1])]
      exact hstep
  | manual_run =>
    rw [gate_safe_step] at hstep
    by_cases hg : s.crew_running = true ∨ s.dispatched ≠ 0
    · rw [if_pos hg] at hstep
      exact absurd hstep (by simp)
    · rw [if_neg hg] at hstep
      push_neg at hg
      rw [gate_step, if_neg (by simp [hg.1])]
      exact hstep
  | begin_body => exact hstep
  | finish_body => exact hstep

/-- Runs under the strengthened guards preserve the invariant and agree with
runs under the code's guards. -/
theorem gate_safe_exec_inv_sound (tr : List GateEvent) (s s1 : GateState)
    (hinv : GateInv s) (hrun : gate_safe_exec tr s = some s1) :
    GateInv s1 ∧ gate_exec tr s = some s1 := by
  induction tr generalizing s with
  | nil =>
    cases hrun
    exact ⟨hinv, rfl⟩
  | cons e tr ih =>
    rw [gate_safe_exec] at hrun
    cases hstep : gate_safe_step e s with
    | none =>
      rw [hstep] at hrun
      exact absurd hrun (by simp)
    | some s2 =>
      rw [hstep] at hrun
      have h2 := ih s2 (gate_safe_step_inv e s s2 hinv hstep) hrun
      refine ⟨h2.1, ?_⟩
      rw [gate_exec, gate_safe_step_sound e s s2 hstep]
      exact h2.2

/-- Claim C2 amended: at most one analysis invocation is in flight for
every interleaving in which a trigger — manual or automatic — fires only
while no analysis is in flight **and** no previously dispatched invocation
is still pending (has not yet set the flag); the code checks the former but
cannot see the latter, because the flag is set by the spawned body after
dispatch rather than before it. -/
theorem gate_safe_traces_single_inflight (tr : List GateEvent)
    (s : GateState) (hrun : gate_safe_exec tr gate_init = some s) :
    s.inflight ≤ 1 ∧ gate_exec tr gate_init = some s := by
  have h := gate_safe_exec_inv_sound tr gate_init s
    ⟨by decide, by decide, by decide⟩ hrun
  have hle := h.1.1
  exact ⟨by omega, h.2⟩

/-- Witness for the amended C2 at a concrete input: the disciplined trace
auto-dispatch, begin, finish is executable under the code's guards and never
holds two invocations in flight. -/
theorem gate_safe_traces_single_inflight_witness :
    gate_exec [GateEvent.auto_trigger, GateEvent.begin_body,
        GateEvent.finish_body] gate_init
      = some ⟨false, 0, 0⟩
      ∧ (⟨false, 0, 0⟩ : GateState).inflight ≤ 1 :=
  ⟨(gate_safe_traces_single_inflight
      [GateEvent.auto_trigger, GateEvent.begin_body, GateEvent.finish_body]
      ⟨false, 0, 0⟩ (by decide)).2,
   (gate_safe_traces_single_inflight
      [GateEvent.auto_trigger, GateEvent.begin_body, GateEvent.finish_body]
      ⟨false, 0, 0⟩ (by decide)).1⟩


